import Mathlib

/-!
Verification of the distributed training orchestration layer of
`nemo/collections/multimodal/models/clip/megatron_clip_models.py`
(class `MegatronCLIPModel`): schedule selection, gradient-synchronization
protocol, batch partitioning, validation-metric averaging, and
virtual-pipeline checkpoint sharding.

Shallow embedding: the Python methods are translated into executable Lean
functions.  External collaborators (the apex schedules, torch collectives,
the base-class optimizer helpers) are represented abstractly: a collective
all-reduce is an arbitrary function on the flattened buffer, the optimizer
reductions appear as named actions in a per-step trace.
-/

namespace MegatronCLIP

/-- Trainer precision values accepted at construction
(`trainer.precision` must be one of 32, 16, "bf16"). -/
inductive Precision
  | fp32
  | fp16
  | bf16
  deriving DecidableEq, Repr

/-- The configuration options consulted by the orchestration layer
(`self.cfg` / `self.trainer` fields and the optimizer flavour).
`virtual_pipeline_model_parallel_size` mirrors
`cfg.get('virtual_pipeline_model_parallel_size', None)`: an optional
integer, absent = `none`. -/
structure Config where
  precision : Precision
  megatron_amp_O2 : Bool
  virtual_pipeline_model_parallel_size : Option Nat
  pipeline_model_parallel_size : Nat
  tensor_model_parallel_size : Nat
  sequence_parallel : Bool
  with_distributed_adam : Bool
  global_batch_size : Nat
  micro_batch_size : Nat
  deriving DecidableEq, Repr

/-- Python truthiness of the optional integer returned by
`cfg.get('virtual_pipeline_model_parallel_size', None)`:
`None` and `0` are falsy, any non-zero integer is truthy. -/
def optionNatTruthy : Option Nat → Bool
  | none => false
  | some n => n != 0

/-- Configuration errors raised eagerly by `MegatronCLIPModel.__init__`
(including `_validate_trainer`). -/
inductive InitError
  | accumulateGradBatchesError
  | virtualPipelineRequiresO2
  deriving DecidableEq, Repr

/-- Shape of `self.model` after construction: a single module, or a list
of per-virtual-stage modules (interleaved pipelining). -/
inductive ModelRep
  | single
  | multi (stages : Nat)
  deriving DecidableEq, Repr

/-- `MegatronCLIPModel.__init__` (the orchestration-relevant part):
`_validate_trainer` rejects `trainer.accumulate_grad_batches > 1`; then
`if not self.megatron_amp_o2 and self.cfg.get('virtual_pipeline_model_parallel_size', None):`
raises `ValueError('Virtual pipeline model parallel is only supported when using megatron_amp_O2')`;
then `build_model` produces a list of modules and
`if self.cfg.get('virtual_pipeline_model_parallel_size', None) is None: self.model = self.model[0]`. -/
def megatronCLIPInit (cfg : Config) (accumulate_grad_batches : Nat) :
    Except InitError ModelRep :=
  if accumulate_grad_batches > 1 then
    Except.error InitError.accumulateGradBatchesError
  else if !cfg.megatron_amp_O2 && optionNatTruthy cfg.virtual_pipeline_model_parallel_size then
    Except.error InitError.virtualPipelineRequiresO2
  else
    match cfg.virtual_pipeline_model_parallel_size with
    | none => Except.ok ModelRep.single
    | some m => Except.ok (ModelRep.multi m)

/-- The three apex forward/backward scheduling strategies. -/
inductive FwdBwdFunction
  | pipeliningWithInterleaving
  | pipeliningWithoutInterleaving
  | noPipelining
  deriving DecidableEq, Repr

/-- `MegatronCLIPModel._get_fwd_bwd_function`: pure three-way selection on
the parallel configuration. -/
def _get_fwd_bwd_function (cfg : Config) : FwdBwdFunction :=
  if cfg.pipeline_model_parallel_size > 1 then
    if cfg.virtual_pipeline_model_parallel_size ≠ none then
      FwdBwdFunction.pipeliningWithInterleaving
    else
      FwdBwdFunction.pipeliningWithoutInterleaving
  else
    FwdBwdFunction.noPipelining

/-- The gradient-synchronization collectives that `training_step` may
invoke after the schedule completes: the sequence-parallel layernorm-grad
all-reduce (`allreduce_sequence_parallel_gradients`, over the
tensor-parallel group), the main-grad all-reduce
(`self._optimizer.allreduce_main_grads()`, O2 shadow fp32 buffers), and
the raw parameter-grad all-reduce (`self.allreduce_gradients()`, over the
data-parallel group). -/
inductive SyncAction
  | sequenceParallelAllReduce
  | mainGradAllReduce
  | rawGradAllReduce
  deriving DecidableEq, Repr

/-- The sequence of gradient-synchronization actions performed by
`MegatronCLIPModel.training_step` after the fwd/bwd schedule returns
(source lines 480-496): first the conditional sequence-parallel
all-reduce, then exactly one of {nothing, main-grad all-reduce, raw-grad
all-reduce} depending on optimizer flavour and O2 mode. -/
def gradSyncActions (cfg : Config) : List SyncAction :=
  (if cfg.tensor_model_parallel_size > 1 && cfg.sequence_parallel then
    [SyncAction.sequenceParallelAllReduce]
  else []) ++
  (if cfg.with_distributed_adam then
    []
  else if cfg.megatron_amp_O2 then
    [SyncAction.mainGradAllReduce]
  else
    [SyncAction.rawGradAllReduce])

/-- A model parameter as seen by the gradient-sync protocol: the
`sequence_parallel_enabled` attribute, the raw gradient buffer
(`param.grad`) and the O2 main-gradient buffer (`param.main_grad`),
each modelled as a flat vector of values. -/
structure Param where
  sequence_parallel_enabled : Bool
  grad : List Int
  main_grad : List Int
  deriving DecidableEq, Repr

/-- `self.model`: either a single module or a list of per-virtual-stage
modules (the `isinstance(self.model, list)` branching in the source). -/
inductive Modules (α : Type)
  | single (m : α)
  | multi (ms : List α)
  deriving DecidableEq, Repr

/-- `MegatronCLIPModel._append_module_grads`: append to `grads` the
(main-)gradient buffer of every parameter of `module` whose
`sequence_parallel_enabled` attribute is set; `main_grad` when
`megatron_amp_o2` else `grad`. -/
def _append_module_grads (o2 : Bool) (module : List Param) (grads : List (List Int)) :
    List (List Int) :=
  module.foldl
    (fun gs param =>
      if param.sequence_parallel_enabled then
        gs ++ [if o2 then param.main_grad else param.grad]
      else gs)
    grads

/-- The grad-collection phase of `allreduce_sequence_parallel_gradients`:
`grads = []`, then `_append_module_grads` over each module of
`self.model` (or over the single module). -/
def collectSeqParallelGrads (o2 : Bool) (model : Modules (List Param)) :
    List (List Int) :=
  match model with
  | Modules.single m => _append_module_grads o2 m []
  | Modules.multi ms => ms.foldl (fun gs m => _append_module_grads o2 m gs) []

/-- `torch._utils._unflatten_dense_tensors(flat, grads)`: split `flat`
back into pieces shaped like the tensors of `grads` (each piece takes the
length of the corresponding original buffer). -/
def unflattenLike : List (List Int) → List Int → List (List Int)
  | [], _ => []
  | g :: gs, flat => flat.take g.length :: unflattenLike gs (flat.drop g.length)

/-- The copy-back phase `for buf, synced in zip(grads, unflattened): buf.copy_(synced)`
restricted to one module: each sequence-parallel-enabled parameter's
relevant buffer (main_grad when O2 else grad) receives the next synced
chunk, in collection order; remaining chunks are returned for the
following modules. -/
def copyBackModule (o2 : Bool) : List Param → List (List Int) → List Param × List (List Int)
  | [], bufs => ([], bufs)
  | p :: ps, bufs =>
    if p.sequence_parallel_enabled then
      match bufs with
      | [] =>
        let r := copyBackModule o2 ps []
        (p :: r.1, r.2)
      | b :: bs =>
        let r := copyBackModule o2 ps bs
        ((if o2 then { p with main_grad := b } else { p with grad := b }) :: r.1, r.2)
    else
      let r := copyBackModule o2 ps bufs
      (p :: r.1, r.2)

/-- Copy-back threaded through the list of virtual-stage modules, in the
same order the gradients were collected. -/
def copyBackModules (o2 : Bool) : List (List Param) → List (List Int) → List (List Param)
  | [], _ => []
  | m :: ms, bufs =>
    let r := copyBackModule o2 m bufs
    r.1 :: copyBackModules o2 ms r.2

/-- `MegatronCLIPModel.allreduce_sequence_parallel_gradients`: collect the
sequence-parallel-enabled gradient buffers from all modules, coalesce them
into one contiguous buffer (`torch._utils._flatten_dense_tensors`),
all-reduce that buffer over the tensor-parallel group (`allReduce` stands
for the collective `torch.distributed.all_reduce`), then scatter the
result back into the original gradient buffers. -/
def allreduce_sequence_parallel_gradients (o2 : Bool) (allReduce : List Int → List Int)
    (model : Modules (List Param)) : Modules (List Param) :=
  let grads := collectSeqParallelGrads o2 model
  let coalesced := grads.flatten
  let synced := allReduce coalesced
  let chunks := unflattenLike grads synced
  match model with
  | Modules.single m => Modules.single (copyBackModule o2 m chunks).1
  | Modules.multi ms => Modules.multi (copyBackModules o2 ms chunks)

/-- A per-rank global batch as delivered by the dataloader: the "images"
and "captions" tensors, each a list of rows (`shape[0]` = row count). -/
structure Batch where
  images : List (List Int)
  captions : List (List Int)
  deriving DecidableEq, Repr

/-- The batch-shape error raised by `process_global_batch`:
`NotImplementedError("Please turn on drop_last.")`. -/
inductive PartitionError
  | dropLastRequired
  deriving DecidableEq, Repr

/-- `MegatronCLIPModel.process_global_batch(global_batch, global_batch_size=None)`:
compute `expected_batch_size = global_batch_size // data_parallel_world_size`
when an expected global size is supplied; if the expected size exceeds the
actual row count, raise; otherwise return `[images, captions]` unchanged
(the padding branch in the source is commented out). -/
def process_global_batch (data_parallel_world_size : Nat) (global_batch : Batch)
    (global_batch_size : Option Nat) :
    Except PartitionError (List (List Int) × List (List Int)) :=
  let images := global_batch.images
  let captions := global_batch.captions
  let expected_batch_size := global_batch_size.map (· / data_parallel_world_size)
  let current_batch_size := images.length
  match expected_batch_size with
  | some e =>
    if e > current_batch_size then Except.error PartitionError.dropLastRequired
    else Except.ok (images, captions)
  | none => Except.ok (images, captions)

/-- The batch-routing prologue of `MegatronCLIPModel.training_step`: ranks
on the pipeline's first or last stage (`is_pipeline_first_stage` /
`is_pipeline_last_stage`, ignoring virtual stages) call
`process_global_batch(batch)` (no expected size); all other ranks pass
`None` to the schedule. -/
def training_batch_for_pipeline (data_parallel_world_size : Nat)
    (is_first_stage is_last_stage : Bool) (batch : Batch) :
    Except PartitionError (Option (List (List Int) × List (List Int))) :=
  if is_first_stage || is_last_stage then
    (process_global_batch data_parallel_world_size batch none).map some
  else
    Except.ok none

/-- The batch-routing prologue of `MegatronCLIPModel.validation_step`:
`process_global_batch(batch, self.cfg.global_batch_size)`. -/
def validation_batch_for_pipeline (data_parallel_world_size : Nat) (batch : Batch)
    (global_batch_size : Nat) :
    Except PartitionError (List (List Int) × List (List Int)) :=
  process_global_batch data_parallel_world_size batch (some global_batch_size)

/-- The input-selection logic of `fwd_output_and_loss_func` (inside
`get_forward_output_and_loss_func`): with pipeline world size 1 both
tensors of the batch are consumed; with a deeper pipeline only the first
stage reads `batch[0]`/`batch[1]`, every other stage sets
`images, captions = None, None`. -/
def fwd_func_inputs (pipeline_world_size : Nat) (is_first_stage : Bool)
    (batch : Option (List (List Int) × List (List Int))) :
    Option (List (List Int)) × Option (List (List Int)) :=
  if pipeline_world_size == 1 then
    match batch with
    | some (images, captions) => (some images, some captions)
    | none => (none, none)
  else
    if is_first_stage then
      match batch with
      | some (images, captions) => (some images, some captions)
      | none => (none, none)
    else
      (none, none)

/-- `np.array(metric_with_batch_size).flatten()` for a list of
`[metric, batch_size]` pairs: the interleaved flat sequence
`[m1, b1, m2, b2, ...]`. -/
def npFlattenPairs (rows : List (ℚ × ℚ)) : List ℚ :=
  (rows.map (fun p => [p.1, p.2])).flatten

/-- Numpy stride-2 slicing `arr[0::2]`: every second element starting at
index 0. -/
def stride2 : List ℚ → List ℚ
  | [] => []
  | [x] => [x]
  | x :: _ :: rest => x :: stride2 rest

/-- `np.dot` on two flat vectors (zip-truncating, as numpy requires equal
lengths and our callers supply them). -/
def npDot (a b : List ℚ) : ℚ :=
  (List.zipWith (fun x y => x * y) a b).sum

/-- `_get_average_metric` (inside `validation_epoch_end`): for each
micro-batch list of `[metric, batch_size]` pairs, flatten, read the
metrics at even indices (`[0::2]`) and the batch sizes at odd indices
(`[1::2]`), accumulate `total_num_samples += sum(batch_sizes)` and
`total_metric += np.dot(batch_metrices, batch_sizes)`; return
`total_metric / total_num_samples`.  The loop body is factored out as
`metricLoopBody`. -/
def metricLoopBody (acc : ℚ × ℚ) (metric_with_batch_size : List (ℚ × ℚ)) : ℚ × ℚ :=
  let arr := npFlattenPairs metric_with_batch_size
  let batch_metrices := stride2 arr
  let batch_sizes := stride2 (arr.drop 1)
  (acc.1 + batch_sizes.sum, acc.2 + npDot batch_metrices batch_sizes)

def _get_average_metric (metric_outputs : List (List (ℚ × ℚ))) : ℚ :=
  let totals := metric_outputs.foldl metricLoopBody (0, 0)
  totals.2 / totals.1

/-- A module's parameter state mapping (`state_dict`): parameter key to
value. -/
def StateDict : Type := List (String × Int)

instance : DecidableEq StateDict := by
  unfold StateDict
  infer_instance

instance : Inhabited StateDict := ⟨([] : List (String × Int))⟩

/-- The per-stage checkpoint key `f'model{i}'`. -/
def stageKey (i : Nat) : String := "model" ++ toString i

/-- Python dict lookup `checkpoint[f'model{i}']` on the checkpoint
mapping (assoc-list model; `none` = `KeyError`). -/
def dictLookup (checkpoint : List (String × StateDict)) (k : String) : Option StateDict :=
  List.lookup k checkpoint

/-- The key-set comparison performed by
`torch.nn.Module.load_state_dict(sd, strict=True)`: every expected
parameter key of the module must appear in the loaded dict and vice versa
(missing or unexpected keys are a fatal error). -/
def keysMatch (module sd : StateDict) : Bool :=
  (module.map Prod.fst).all (fun k => (sd.map Prod.fst).contains k) &&
    (sd.map Prod.fst).all (fun k => (module.map Prod.fst).contains k)

/-- Errors that `on_load_checkpoint` can raise while looping over virtual
stages: a missing `model{i}` key in the checkpoint mapping, or a
strict-mode key mismatch from `load_state_dict(..., strict=True)`. -/
inductive LoadError
  | keyError
  | strictMismatch
  deriving DecidableEq, Repr

/-- `MegatronCLIPModel.on_save_checkpoint`: when `self.model` is a list,
for each stage index `i` set the virtual pipeline rank context to `i` and
store `checkpoint[f'model{i}'] = self.model[i].module.state_dict_for_save_checkpoint()`
(`extract ctx m` stands for the state extraction performed while the
ambient virtual rank context equals `ctx`), then reset the context to 0.
Returns the entries written into the checkpoint mapping and the final
virtual rank context; a single (non-list) model writes nothing. -/
def on_save_checkpoint (extract : Nat → StateDict → StateDict)
    (model : Modules StateDict) (vp_rank : Nat) :
    List (String × StateDict) × Nat :=
  match model with
  | Modules.single _ => ([], vp_rank)
  | Modules.multi ms =>
    let entries := ms.enum.foldl
      (fun (acc : List (String × StateDict)) (im : Nat × StateDict) =>
        acc ++ [(stageKey im.1, extract im.1 im.2)])
      []
    (entries, 0)

/-- The per-stage loop of `on_load_checkpoint`: for each module, set the
virtual rank context to the stage index, look up `checkpoint[f'model{i}']`
(KeyError if absent) and `load_state_dict(..., strict=True)` into the
stage's module.  Returns the (possibly partially updated) module states,
the virtual rank context at exit, and the pending error if the loop was
aborted by an exception. -/
def loadLoop (checkpoint : List (String × StateDict)) :
    Nat → List StateDict → List StateDict × Nat × Option LoadError
  | i, [] => ([], i, none)
  | i, m :: ms =>
    match dictLookup checkpoint (stageKey i) with
    | none => (m :: ms, i, some LoadError.keyError)
    | some sd =>
      if keysMatch m sd then
        (sd :: (loadLoop checkpoint (i + 1) ms).1,
          (loadLoop checkpoint (i + 1) ms).2.1, (loadLoop checkpoint (i + 1) ms).2.2)
      else
        (m :: ms, i, some LoadError.strictMismatch)

/-- `MegatronCLIPModel.on_load_checkpoint`: when `self.model` is a list,
run the per-stage strict loading loop and reset the virtual rank context
to 0 afterwards (an exception escapes before the reset); a single
(non-list) model is untouched. -/
def on_load_checkpoint (checkpoint : List (String × StateDict))
    (model : Modules StateDict) (vp_rank : Nat) :
    Modules StateDict × Nat × Option LoadError :=
  match model with
  | Modules.single m => (Modules.single m, vp_rank, none)
  | Modules.multi ms =>
    match (loadLoop checkpoint 0 ms).2.2 with
    | none => (Modules.multi (loadLoop checkpoint 0 ms).1, 0, none)
    | some e =>
      (Modules.multi (loadLoop checkpoint 0 ms).1,
        (loadLoop checkpoint 0 ms).2.1, some e)

/-- The module `m` can be strict-loaded from the checkpoint entry at key
index `i`: the `model{i}` key is present and its key set matches the
module's. -/
def stageEntryOk (checkpoint : List (String × StateDict)) (m : StateDict) (i : Nat) : Bool :=
  match dictLookup checkpoint (stageKey i) with
  | none => false
  | some sd => keysMatch m sd

/-- Stage `i` of the model list has a loadable checkpoint entry. -/
def stageOk (checkpoint : List (String × StateDict)) (ms : List StateDict) (i : Nat) : Bool :=
  stageEntryOk checkpoint (ms.getD i default) i

instance {ε α : Type} [DecidableEq ε] [DecidableEq α] : DecidableEq (Except ε α) := by
  intro a b
  cases a <;> cases b <;>
    first
      | (exact isFalse (by intro h; exact Except.noConfusion h))
      | (rename_i x y
         exact if h : x = y then isTrue (by rw [h]) else isFalse (by intro hh; cases hh; exact h rfl))

/-- Counting an action other than the sequence-parallel one in the
conditional sequence-parallel prefix of the sync trace gives zero. -/
theorem count_seq_prefix (c : Prop) [Decidable c] (a : SyncAction)
    (h : a ≠ SyncAction.sequenceParallelAllReduce) :
    (if c then [SyncAction.sequenceParallelAllReduce] else []).count a = 0 := by
  split <;> simp [List.count_cons, h]

/-- C3: the schedule selector is a pure three-way function of the parallel
configuration: pipeline size ≤ 1 gives no-pipelining; pipeline size > 1
with the virtual size unset gives pipelining-without-interleaving; with
the virtual size set it gives pipelining-with-interleaving. -/
theorem C3_schedule_selector_cases (cfg : Config) :
    (cfg.pipeline_model_parallel_size ≤ 1 →
      _get_fwd_bwd_function cfg = FwdBwdFunction.noPipelining) ∧
    (cfg.pipeline_model_parallel_size > 1 →
      cfg.virtual_pipeline_model_parallel_size = none →
      _get_fwd_bwd_function cfg = FwdBwdFunction.pipeliningWithoutInterleaving) ∧
    (cfg.pipeline_model_parallel_size > 1 →
      cfg.virtual_pipeline_model_parallel_size.isSome →
      _get_fwd_bwd_function cfg = FwdBwdFunction.pipeliningWithInterleaving) := by
  refine ⟨?_, ?_, ?_⟩
  · intro h
    unfold _get_fwd_bwd_function
    rw [if_neg (by omega)]
  · intro h1 h2
    unfold _get_fwd_bwd_function
    rw [if_pos h1, if_neg (by simp [h2])]
  · intro h1 h2
    obtain ⟨m, hm⟩ := Option.isSome_iff_exists.mp h2
    unfold _get_fwd_bwd_function
    rw [if_pos h1, if_pos (by simp [hm])]

/-- Witness for C3 at concrete configurations covering all three cases. -/
theorem C3_schedule_selector_cases_witness :
    _get_fwd_bwd_function
      { precision := Precision.fp32, megatron_amp_O2 := false,
        virtual_pipeline_model_parallel_size := none,
        pipeline_model_parallel_size := 1, tensor_model_parallel_size := 1,
        sequence_parallel := false, with_distributed_adam := false,
        global_batch_size := 32, micro_batch_size := 8 } = FwdBwdFunction.noPipelining ∧
    _get_fwd_bwd_function
      { precision := Precision.fp32, megatron_amp_O2 := false,
        virtual_pipeline_model_parallel_size := none,
        pipeline_model_parallel_size := 4, tensor_model_parallel_size := 1,
        sequence_parallel := false, with_distributed_adam := false,
        global_batch_size := 32, micro_batch_size := 8 } =
      FwdBwdFunction.pipeliningWithoutInterleaving ∧
    _get_fwd_bwd_function
      { precision := Precision.fp16, megatron_amp_O2 := true,
        virtual_pipeline_model_parallel_size := some 2,
        pipeline_model_parallel_size := 4, tensor_model_parallel_size := 1,
        sequence_parallel := false, with_distributed_adam := false,
        global_batch_size := 32, micro_batch_size := 8 } =
      FwdBwdFunction.pipeliningWithInterleaving :=
  ⟨(C3_schedule_selector_cases _).1 (by decide),
   (C3_schedule_selector_cases _).2.1 (by decide) rfl,
   (C3_schedule_selector_cases _).2.2 (by decide) rfl⟩

/-- C4 counterexample: with `virtual_pipeline_model_parallel_size` set to
the value 0 and `megatron_amp_O2` disabled, construction succeeds, because
the guard tests Python truthiness of the config value and `0` is falsy; so
the claim "for every configuration in which the virtual size is set but O2
is not enabled, construction fails" is false as stated. -/
theorem C4_virtual_pipeline_zero_counterexample :
    megatronCLIPInit
      { precision := Precision.fp32, megatron_amp_O2 := false,
        virtual_pipeline_model_parallel_size := some 0,
        pipeline_model_parallel_size := 2, tensor_model_parallel_size := 1,
        sequence_parallel := false, with_distributed_adam := false,
        global_batch_size := 32, micro_batch_size := 8 } 1 =
      Except.ok (ModelRep.multi 0) := rfl

/-- C4 (amended): for every configuration in which
`virtual_pipeline_model_parallel_size` is set to a nonzero value and
`megatron_amp_O2` is not enabled, construction fails eagerly with a
configuration error (the virtual-pipeline one, unless the
`accumulate_grad_batches` validation fails even earlier). -/
theorem C4_virtual_pipeline_requires_O2_amended (cfg : Config)
    (accumulate_grad_batches n : Nat)
    (hvpp : cfg.virtual_pipeline_model_parallel_size = some n) (hn : n ≠ 0)
    (ho2 : cfg.megatron_amp_O2 = false) :
    megatronCLIPInit cfg accumulate_grad_batches =
      Except.error
        (if accumulate_grad_batches > 1 then InitError.accumulateGradBatchesError
         else InitError.virtualPipelineRequiresO2) := by
  unfold megatronCLIPInit
  by_cases hagb : accumulate_grad_batches > 1
  · simp [hagb]
  · simp [hagb, ho2, hvpp, optionNatTruthy, hn]

/-- Witness for the amended C4: a configuration with virtual size 2 and O2
disabled is rejected at construction. -/
theorem C4_virtual_pipeline_requires_O2_amended_witness :
    megatronCLIPInit
      { precision := Precision.fp32, megatron_amp_O2 := false,
        virtual_pipeline_model_parallel_size := some 2,
        pipeline_model_parallel_size := 4, tensor_model_parallel_size := 1,
        sequence_parallel := false, with_distributed_adam := false,
        global_batch_size := 32, micro_batch_size := 8 } 1 =
      Except.error InitError.virtualPipelineRequiresO2 := by
  have h := C4_virtual_pipeline_requires_O2_amended
    { precision := Precision.fp32, megatron_amp_O2 := false,
      virtual_pipeline_model_parallel_size := some 2,
      pipeline_model_parallel_size := 4, tensor_model_parallel_size := 1,
      sequence_parallel := false, with_distributed_adam := false,
      global_batch_size := 32, micro_batch_size := 8 } 1 2 rfl (by decide) rfl
  simpa using h

/-- C1: the gradient-synchronization decision table of `training_step`:
with the distributed/fused optimizer no extra gradient all-reduce happens;
otherwise with O2 exactly one main-grad all-reduce and no raw-grad
all-reduce happens; otherwise exactly one raw-grad all-reduce and no
main-grad all-reduce happens.  In particular, for the standard optimizer
with O2 enabled and sequence parallelism disabled, exactly one main-grad
all-reduce and zero sequence-parallel all-reduces occur per step. -/
theorem C1_grad_sync_decision_table (cfg : Config) :
    (cfg.with_distributed_adam = true →
      (gradSyncActions cfg).count SyncAction.mainGradAllReduce = 0 ∧
      (gradSyncActions cfg).count SyncAction.rawGradAllReduce = 0) ∧
    (cfg.with_distributed_adam = false → cfg.megatron_amp_O2 = true →
      (gradSyncActions cfg).count SyncAction.mainGradAllReduce = 1 ∧
      (gradSyncActions cfg).count SyncAction.rawGradAllReduce = 0) ∧
    (cfg.with_distributed_adam = false → cfg.megatron_amp_O2 = false →
      (gradSyncActions cfg).count SyncAction.rawGradAllReduce = 1 ∧
      (gradSyncActions cfg).count SyncAction.mainGradAllReduce = 0) ∧
    (cfg.with_distributed_adam = false → cfg.megatron_amp_O2 = true →
      cfg.sequence_parallel = false →
      (gradSyncActions cfg).count SyncAction.mainGradAllReduce = 1 ∧
      (gradSyncActions cfg).count SyncAction.sequenceParallelAllReduce = 0) := by
  have hmain : (SyncAction.mainGradAllReduce ≠ SyncAction.sequenceParallelAllReduce) := by
    decide
  have hraw : (SyncAction.rawGradAllReduce ≠ SyncAction.sequenceParallelAllReduce) := by
    decide
  refine ⟨?_, ?_, ?_, ?_⟩
  · intro hd
    unfold gradSyncActions
    rw [hd]
    simp [List.count_append, count_seq_prefix _ _ hmain, count_seq_prefix _ _ hraw]
  · intro hd ho2
    unfold gradSyncActions
    rw [hd, ho2]
    simp [List.count_append, count_seq_prefix _ _ hmain, count_seq_prefix _ _ hraw,
      List.count_cons]
  · intro hd ho2
    unfold gradSyncActions
    rw [hd, ho2]
    simp [List.count_append, count_seq_prefix _ _ hmain, count_seq_prefix _ _ hraw,
      List.count_cons]
  · intro hd ho2 hsp
    unfold gradSyncActions
    rw [hd, ho2, hsp]
    simp [List.count_append, count_seq_prefix _ _ hmain, List.count_cons]

/-- Witness for C1 at concrete configurations: distributed optimizer does
nothing extra; standard + O2 + no sequence parallelism does exactly one
main-grad all-reduce and no sequence-parallel all-reduce; standard without
O2 does exactly one raw-grad all-reduce. -/
theorem C1_grad_sync_decision_table_witness :
    ((gradSyncActions
      { precision := Precision.bf16, megatron_amp_O2 := true,
        virtual_pipeline_model_parallel_size := none,
        pipeline_model_parallel_size := 2, tensor_model_parallel_size := 2,
        sequence_parallel := true, with_distributed_adam := true,
        global_batch_size := 32, micro_batch_size := 8 }).count
        SyncAction.mainGradAllReduce = 0) ∧
    ((gradSyncActions
      { precision := Precision.fp16, megatron_amp_O2 := true,
        virtual_pipeline_model_parallel_size := none,
        pipeline_model_parallel_size := 1, tensor_model_parallel_size := 2,
        sequence_parallel := false, with_distributed_adam := false,
        global_batch_size := 32, micro_batch_size := 8 }).count
        SyncAction.mainGradAllReduce = 1 ∧
     (gradSyncActions
      { precision := Precision.fp16, megatron_amp_O2 := true,
        virtual_pipeline_model_parallel_size := none,
        pipeline_model_parallel_size := 1, tensor_model_parallel_size := 2,
        sequence_parallel := false, with_distributed_adam := false,
        global_batch_size := 32, micro_batch_size := 8 }).count
        SyncAction.sequenceParallelAllReduce = 0) ∧
    ((gradSyncActions
      { precision := Precision.fp32, megatron_amp_O2 := false,
        virtual_pipeline_model_parallel_size := none,
        pipeline_model_parallel_size := 1, tensor_model_parallel_size := 1,
        sequence_parallel := false, with_distributed_adam := false,
        global_batch_size := 32, micro_batch_size := 8 }).count
        SyncAction.rawGradAllReduce = 1) :=
  ⟨((C1_grad_sync_decision_table _).1 rfl).1,
   (C1_grad_sync_decision_table _).2.2.2 rfl rfl rfl,
   ((C1_grad_sync_decision_table _).2.2.1 rfl rfl).1⟩

/-- C6: when an expected global batch size is supplied and the expected
per-rank size `global_batch_size // data_parallel_world_size` exceeds the
actual per-rank row count, `process_global_batch` raises the batch-shape
error; and whenever it succeeds it returns the input tensors unchanged,
so it never pads with synthetic data and never proceeds with an
undersized batch. -/
theorem C6_undersized_batch_error (dp : Nat) (b : Batch) (gbs : Nat) :
    (gbs / dp > b.images.length →
      process_global_batch dp b (some gbs) =
        Except.error PartitionError.dropLastRequired) ∧
    (∀ imgs caps,
      process_global_batch dp b (some gbs) = Except.ok (imgs, caps) →
      imgs = b.images ∧ caps = b.captions) := by
  constructor
  · intro h
    unfold process_global_batch
    simp [h]
  · intro imgs caps h
    unfold process_global_batch at h
    by_cases hgt : gbs / dp > b.images.length
    · simp [hgt] at h
    · simp [hgt] at h
      exact ⟨h.1.symm, h.2.symm⟩

/-- Witness for C6 at the spec's end-to-end scenario: global_batch_size
32, data-parallel world size 2 (expected per-rank size 16), an actual
per-rank batch of 14 rows (global batch 28) raises the batch-shape
error, and a full-size batch passes through unchanged. -/
theorem C6_undersized_batch_error_witness :
    process_global_batch 2 ⟨List.replicate 14 [0], List.replicate 14 [1]⟩ (some 32) =
      Except.error PartitionError.dropLastRequired ∧
    (List.replicate 16 ([0] : List Int) = List.replicate 16 [0] ∧
      List.replicate 16 ([1] : List Int) = List.replicate 16 [1]) :=
  ⟨(C6_undersized_batch_error 2 _ 32).1 (by decide),
   (C6_undersized_batch_error 2 ⟨List.replicate 16 [0], List.replicate 16 [1]⟩ 32).2
     (List.replicate 16 [0]) (List.replicate 16 [1]) rfl⟩

/-- C10: the training path partitions the global batch without supplying
an expected size, so the undersized-batch check is skipped: a
training-step batch of any per-rank size is routed to the schedule
without error (first/last-stage ranks get the tensors, other ranks get
the null placeholder); the check fires only on the validation/test path,
which passes the configured global batch size. -/
theorem C10_training_skips_batch_check (dp : Nat) (first_stage last_stage : Bool)
    (b : Batch) (gbs : Nat) :
    (training_batch_for_pipeline dp first_stage last_stage b =
      Except.ok
        (if first_stage || last_stage then some (b.images, b.captions) else none)) ∧
    (gbs / dp > b.images.length →
      validation_batch_for_pipeline dp b gbs =
        Except.error PartitionError.dropLastRequired) := by
  constructor
  · unfold training_batch_for_pipeline process_global_batch
    cases first_stage <;> cases last_stage <;> simp [Except.map]
  · intro h
    unfold validation_batch_for_pipeline process_global_batch
    simp [h]

/-- Witness for C10: a 14-row per-rank batch (undersized for
global_batch_size 32 over 2 data-parallel ranks) is accepted by the
training path but rejected by the validation path. -/
theorem C10_training_skips_batch_check_witness :
    training_batch_for_pipeline 2 true false
        ⟨List.replicate 14 [0], List.replicate 14 [1]⟩ =
      Except.ok (some (List.replicate 14 [0], List.replicate 14 [1])) ∧
    validation_batch_for_pipeline 2
        ⟨List.replicate 14 [0], List.replicate 14 [1]⟩ 32 =
      Except.error PartitionError.dropLastRequired := by
  have h := C10_training_skips_batch_check 2 true false
    ⟨List.replicate 14 [0], List.replicate 14 [1]⟩ 32
  exact ⟨by simpa using h.1, h.2 (by decide)⟩

/-- C5 counterexample: with pipeline depth > 1, a rank that hosts the
pipeline's last stage but not the first stage still receives the raw
input tensors (the routing predicate is `is_pipeline_first_stage or
is_pipeline_last_stage`), so the claim that every rank not hosting the
first stage receives a null placeholder is false as stated. -/
theorem C5_last_stage_receives_batch_counterexample :
    training_batch_for_pipeline 1 false true ⟨[[0]], [[7]]⟩ =
      Except.ok (some ([[0]], [[7]])) ∧
    training_batch_for_pipeline 1 false true ⟨[[0]], [[7]]⟩ ≠
      Except.ok none := by
  refine ⟨rfl, ?_⟩
  intro h
  have h2 : (some (([[0]], [[7]]) : List (List Int) × List (List Int))) =
      (none : Option (List (List Int) × List (List Int))) := by
    have h1 : (Except.ok (some (([[0]], [[7]]) : List (List Int) × List (List Int))) :
        Except PartitionError (Option (List (List Int) × List (List Int)))) =
        Except.ok none := by
      rw [← h]
      rfl
    exact Except.ok.inj h1
  exact Option.noConfusion h2

/-- C5 (amended): a rank receives the null placeholder instead of the raw
inputs exactly when it hosts neither the first nor the last pipeline
stage; and inside the forward callback, with pipeline depth > 1, every
stage other than the first consumes no raw inputs (images and captions
are both None there). -/
theorem C5_batch_routing_amended (dp pp : Nat) (first_stage last_stage : Bool)
    (b : Batch) (batch_arg : Option (List (List Int) × List (List Int))) :
    (training_batch_for_pipeline dp first_stage last_stage b = Except.ok none ↔
      first_stage = false ∧ last_stage = false) ∧
    (pp > 1 → first_stage = false →
      fwd_func_inputs pp first_stage batch_arg = (none, none)) := by
  constructor
  · unfold training_batch_for_pipeline process_global_batch
    cases first_stage <;> cases last_stage <;> simp [Except.map]
  · intro hpp hfs
    unfold fwd_func_inputs
    rw [hfs]
    rw [if_neg (by simp; omega)]
    simp

/-- Witness for the amended C5: an intermediate rank (neither first nor
last stage) of a depth-4 pipeline receives the null placeholder, and the
forward callback on a non-first stage of that pipeline consumes no
inputs. -/
theorem C5_batch_routing_amended_witness :
    training_batch_for_pipeline 2 false false ⟨[[0]], [[7]]⟩ = Except.ok none ∧
    fwd_func_inputs 4 false (some ([[0]], [[7]])) = (none, none) :=
  ⟨(C5_batch_routing_amended 2 4 false false ⟨[[0]], [[7]]⟩ none).1.mpr ⟨rfl, rfl⟩,
   (C5_batch_routing_amended 2 4 false false ⟨[[0]], [[7]]⟩
     (some ([[0]], [[7]]))).2 (by decide) rfl⟩

/-- Flattening a list of pairs and reading the even-index stride gives the
first components. -/
theorem stride2_flatten_fst : ∀ l : List (ℚ × ℚ),
    stride2 (npFlattenPairs l) = l.map Prod.fst := by
  intro l
  induction l with
  | nil => rfl
  | cons p rest ih =>
    show stride2 (p.1 :: p.2 :: npFlattenPairs rest) = p.1 :: rest.map Prod.fst
    rw [stride2, ih]

/-- Reading the even-index stride after one leading element of a
flattened pair list gives that element followed by the second
components. -/
theorem stride2_cons_flatten (x : ℚ) : ∀ l : List (ℚ × ℚ),
    stride2 (x :: npFlattenPairs l) = x :: l.map Prod.snd := by
  intro l
  induction l generalizing x with
  | nil => rfl
  | cons p rest ih =>
    show stride2 (x :: p.1 :: p.2 :: npFlattenPairs rest) =
      x :: p.2 :: rest.map Prod.snd
    rw [stride2, ih p.2]

/-- Flattening a list of pairs and reading the odd-index stride gives the
second components. -/
theorem stride2_flatten_snd : ∀ l : List (ℚ × ℚ),
    stride2 ((npFlattenPairs l).drop 1) = l.map Prod.snd := by
  intro l
  cases l with
  | nil => rfl
  | cons p rest =>
    show stride2 (p.2 :: npFlattenPairs rest) = p.2 :: rest.map Prod.snd
    exact stride2_cons_flatten p.2 rest

/-- Dotting the first components against the second components sums the
per-pair products. -/
theorem npDot_fst_snd : ∀ l : List (ℚ × ℚ),
    npDot (l.map Prod.fst) (l.map Prod.snd) = (l.map (fun p => p.1 * p.2)).sum := by
  intro l
  induction l with
  | nil => rfl
  | cons p rest ih =>
    simp only [List.map_cons, npDot, List.zipWith_cons_cons, List.sum_cons]
    rw [← npDot, ih]

/-- Characterization of the accumulation loop of `_get_average_metric`:
the first total accumulates all batch sizes, the second all
size-weighted metrics. -/
theorem metricLoopBody_foldl : ∀ (outputs : List (List (ℚ × ℚ))) (a b : ℚ),
    outputs.foldl metricLoopBody (a, b) =
      (a + ((outputs.flatten).map Prod.snd).sum,
       b + ((outputs.flatten).map (fun p => p.1 * p.2)).sum) := by
  intro outputs
  induction outputs with
  | nil => intro a b; simp
  | cons mwbs rest ih =>
    intro a b
    rw [List.foldl_cons]
    show rest.foldl metricLoopBody (metricLoopBody (a, b) mwbs) = _
    rw [show metricLoopBody (a, b) mwbs =
        (a + (mwbs.map Prod.snd).sum, b + (mwbs.map (fun p => p.1 * p.2)).sum) by
      show (a + (stride2 ((npFlattenPairs mwbs).drop 1)).sum,
          b + npDot (stride2 (npFlattenPairs mwbs))
            (stride2 ((npFlattenPairs mwbs).drop 1))) = _
      rw [stride2_flatten_fst, stride2_flatten_snd, npDot_fst_snd]]
    rw [ih]
    simp [List.sum_append, add_assoc]

/-- C7: the averaged validation metric is batch-size-weighted: for every
collection of per-micro-batch (loss, batch_size) pairs,
`_get_average_metric` returns sum(loss_i × size_i) / sum(size_i); in
particular, for losses [2, 4] with batch sizes [3, 1] it returns 5/2
(2.5), not the plain mean 3. -/
theorem C7_weighted_validation_average (metric_outputs : List (List (ℚ × ℚ))) :
    _get_average_metric metric_outputs =
      ((metric_outputs.flatten).map (fun p => p.1 * p.2)).sum /
        ((metric_outputs.flatten).map Prod.snd).sum ∧
    _get_average_metric [[(2, 3), (4, 1)]] = 5 / 2 ∧
    _get_average_metric [[(2, 3), (4, 1)]] ≠ 3 := by
  refine ⟨?_, ?_, ?_⟩
  · unfold _get_average_metric
    rw [metricLoopBody_foldl]
    simp
  · norm_num [_get_average_metric, metricLoopBody, npFlattenPairs, stride2, npDot]
  · norm_num [_get_average_metric, metricLoopBody, npFlattenPairs, stride2, npDot]

/-- Folding append-of-singleton over a list builds the mapped list. -/
theorem foldl_append_singleton {α β : Type} (f : α → β) :
    ∀ (l : List α) (acc : List β),
    l.foldl (fun a x => a ++ [f x]) acc = acc ++ l.map f := by
  intro l
  induction l with
  | nil => intro acc; simp
  | cons x rest ih =>
    intro acc
    rw [List.foldl_cons, ih, List.map_cons]
    simp

/-- Mapping the per-stage checkpoint entry over an enumeration equals
mapping over the index range with `getD` access. -/
theorem enumFrom_map_stage (extract : Nat → StateDict → StateDict) :
    ∀ (ms : List StateDict) (k : Nat),
    (List.enumFrom k ms).map (fun im => (stageKey im.1, extract im.1 im.2)) =
      (List.range ms.length).map
        (fun i => (stageKey (k + i), extract (k + i) (ms.getD i default))) := by
  intro ms
  induction ms with
  | nil => intro k; rfl
  | cons m rest ih =>
    intro k
    show (stageKey k, extract k m) :: (List.enumFrom (k + 1) rest).map _ = _
    rw [ih (k + 1), List.length_cons, List.range_succ_eq_map, List.map_cons,
      List.map_map]
    refine congrArg₂ _ (by simp) ?_
    apply List.map_congr_left
    intro i _
    have hk : k + 1 + i = k + (i + 1) := by omega
    simp [Function.comp, hk]

/-- C9: saving with virtual pipelining writes exactly one checkpoint entry
per virtual stage i, keyed `model{i}`, whose value is extracted while the
active virtual-stage context equals i, and the context is 0 after the
save; when virtual pipelining is not configured (the model is a single
module), both the save hook and the load hook are no-ops at this layer:
the save writes nothing, the load changes nothing, and neither touches
the virtual-stage context. -/
theorem C9_checkpoint_save_per_stage (extract : Nat → StateDict → StateDict)
    (ms : List StateDict) (vp_rank : Nat) (m : StateDict)
    (checkpoint : List (String × StateDict)) :
    on_save_checkpoint extract (Modules.multi ms) vp_rank =
      ((List.range ms.length).map
        (fun i => (stageKey i, extract i (ms.getD i default))), 0) ∧
    on_save_checkpoint extract (Modules.single m) vp_rank = ([], vp_rank) ∧
    on_load_checkpoint checkpoint (Modules.single m) vp_rank =
      (Modules.single m, vp_rank, none) := by
  refine ⟨?_, rfl, rfl⟩
  · show (ms.enum.foldl
        (fun (acc : List (String × StateDict)) (im : Nat × StateDict) =>
          acc ++ [(stageKey im.1, extract im.1 im.2)]) [], 0) = _
    rw [show (ms.enum.foldl
        (fun (acc : List (String × StateDict)) (im : Nat × StateDict) =>
          acc ++ [(stageKey im.1, extract im.1 im.2)]) []) =
        [] ++ ms.enum.map (fun im => (stageKey im.1, extract im.1 im.2)) from
      foldl_append_singleton _ ms.enum []]
    rw [List.nil_append]
    unfold List.enum
    rw [enumFrom_map_stage]
    simp

/-- The per-stage loading loop finishes without an exception exactly when
every remaining stage has a present, key-matching checkpoint entry. -/
theorem loadLoop_none_iff (ck : List (String × StateDict)) :
    ∀ (ms : List StateDict) (i : Nat),
    (loadLoop ck i ms).2.2 = none ↔
      ∀ j, j < ms.length → stageEntryOk ck (ms.getD j default) (i + j) = true := by
  intro ms
  induction ms with
  | nil => intro i; simp [loadLoop]
  | cons m rest ih =>
    intro i
    unfold loadLoop
    cases hlk : dictLookup ck (stageKey i) with
    | none =>
      simp only [hlk]
      constructor
      · intro h; exact absurd h (by simp)
      · intro h
        have h0 := h 0 (by simp)
        rw [show i + 0 = i from rfl] at h0
        simp [stageEntryOk, hlk] at h0
    | some sd =>
      by_cases hkm : keysMatch m sd
      · simp only [hlk, if_pos hkm]
        rw [ih (i + 1)]
        constructor
        · intro h j hj
          cases j with
          | zero =>
            simp only [Nat.add_zero, List.getD_cons_zero]
            simp [stageEntryOk, hlk, hkm]
          | succ j2 =>
            have hj2 := h j2 (by simpa using hj)
            have hk : i + 1 + j2 = i + (j2 + 1) := by omega
            rw [hk] at hj2
            simpa using hj2
        · intro h j hj
          have hj1 := h (j + 1) (by simpa using hj)
          have hk : i + (j + 1) = i + 1 + j := by omega
          rw [hk] at hj1
          simpa using hj1
      · simp only [hlk, if_neg hkm]
        constructor
        · intro h; exact absurd h (by simp)
        · intro h
          have h0 := h 0 (by simp)
          rw [show i + 0 = i from rfl] at h0
          simp [stageEntryOk, hlk] at h0
          exact absurd h0 hkm

/-- On a successful pass, the loading loop replaces each stage's state
with the checkpoint entry for its key. -/
theorem loadLoop_values (ck : List (String × StateDict)) :
    ∀ (ms : List StateDict) (i : Nat),
    (loadLoop ck i ms).2.2 = none →
    (loadLoop ck i ms).1 =
      (List.range ms.length).map
        (fun j => (dictLookup ck (stageKey (i + j))).getD default) := by
  intro ms
  induction ms with
  | nil => intro i _; rfl
  | cons m rest ih =>
    intro i herr
    unfold loadLoop at herr ⊢
    cases hlk : dictLookup ck (stageKey i) with
    | none =>
      simp only [hlk] at herr
      exact absurd herr (by simp)
    | some sd =>
      simp only [hlk] at herr ⊢
      by_cases hkm : keysMatch m sd
      · rw [if_pos hkm] at herr ⊢
        simp only at herr ⊢
        rw [ih (i + 1) herr]
        rw [List.length_cons, List.range_succ_eq_map, List.map_cons, List.map_map]
        refine congrArg₂ _ (by simp [hlk]) ?_
        apply List.map_congr_left
        intro j _
        have hk : i + 1 + j = i + (j + 1) := by omega
        simp [Function.comp, hk]
      · rw [if_neg hkm] at herr
        simp at herr

/-- C8 (amended): with virtual pipelining, each stage of the configured
model is loaded in strict mode, and the load raises no error exactly when
every configured stage index has a checkpoint entry with exactly matching
parameter keys (a missing `model{i}` entry or a key mismatch is a fatal
error); on success every stage's state is replaced by its checkpoint
entry and the virtual-stage context ends at 0.  A checkpoint containing
entries for more stages than configured is loaded without error, the
extra entries being ignored; the stage count is not itself validated. -/
theorem C8_strict_load_amended (ck : List (String × StateDict)) (ms : List StateDict)
    (vp_rank : Nat) (m : StateDict) :
    ((on_load_checkpoint ck (Modules.multi ms) vp_rank).2.2 = none ↔
      ∀ i, i < ms.length → stageOk ck ms i = true) ∧
    ((on_load_checkpoint ck (Modules.multi ms) vp_rank).2.2 = none →
      on_load_checkpoint ck (Modules.multi ms) vp_rank =
        (Modules.multi ((List.range ms.length).map
          (fun i => (dictLookup ck (stageKey i)).getD default)), 0, none)) ∧
    on_load_checkpoint ck (Modules.single m) vp_rank =
      (Modules.single m, vp_rank, none) := by
  have hproj : (on_load_checkpoint ck (Modules.multi ms) vp_rank).2.2 =
      (loadLoop ck 0 ms).2.2 := by
    unfold on_load_checkpoint
    cases herr : (loadLoop ck 0 ms).2.2 <;> simp [herr]
  refine ⟨?_, ?_, rfl⟩
  · rw [hproj, loadLoop_none_iff ck ms 0]
    constructor
    · intro h i hi
      have := h i hi
      simpa [stageOk] using this
    · intro h j hj
      have := h j hj
      simpa [stageOk] using this
  · intro herr
    rw [hproj] at herr
    show (match (loadLoop ck 0 ms).2.2 with
      | none => (Modules.multi (loadLoop ck 0 ms).1, 0, none)
      | some e =>
        (Modules.multi (loadLoop ck 0 ms).1,
          (loadLoop ck 0 ms).2.1, some e)) = _
    rw [herr]
    dsimp only
    rw [loadLoop_values ck ms 0 herr]
    simp

/-- Witness for the amended C8: a two-stage model loads successfully from
a checkpoint with matching `model0`/`model1` entries, each stage's state
being replaced and the virtual-stage context ending at 0. -/
theorem C8_strict_load_amended_witness :
    on_load_checkpoint
        [("model0", [("a", (1 : Int))]), ("model1", [("b", 2)])]
        (Modules.multi [[("a", 0)], [("b", 0)]]) 5 =
      (Modules.multi [[("a", 1)], [("b", 2)]], 0, none) := by
  have h := C8_strict_load_amended
      [("model0", [("a", (1 : Int))]), ("model1", [("b", 2)])]
      [[("a", 0)], [("b", 0)]] 5 []
  have hnone := h.1.mpr (by decide)
  exact (h.2.1 hnone).trans (by rfl)

/-- C8 counterexample: loading a checkpoint holding entries for two
virtual stages into a model configured with a single virtual stage
succeeds with no error (the extra `model1` entry is silently ignored), so
the claim that a stage-count mismatch always fails with a
structural-mismatch error is false as stated. -/
theorem C8_stage_count_mismatch_counterexample :
    ([("model0", ([("w", (1 : Int))] : StateDict)), ("model1", [("w", 2)])].length = 2) ∧
    ([[("w", (0 : Int))]] : List StateDict).length = 1 ∧
    (on_load_checkpoint
        [("model0", [("w", (1 : Int))]), ("model1", [("w", 2)])]
        (Modules.multi [[("w", 0)]]) 0).2.2 = none :=
  ⟨rfl, rfl, rfl⟩

/-- The sequence-parallel-enabled gradient buffers of one module, in
parameter order (main_grad under O2, raw grad otherwise). -/
def seqGradsOfModule (o2 : Bool) (m : List Param) : List (List Int) :=
  m.filterMap (fun p =>
    if p.sequence_parallel_enabled then some (if o2 then p.main_grad else p.grad)
    else none)

/-- Erase the gradient buffer that the sequence-parallel all-reduce is
allowed to overwrite; everything that must stay untouched remains. -/
def scrubParam (o2 : Bool) (p : Param) : Param :=
  if p.sequence_parallel_enabled then
    (if o2 then { p with main_grad := [] } else { p with grad := [] })
  else p

/-- `scrubParam` applied throughout a model representation. -/
def scrubModel (o2 : Bool) : Modules (List Param) → Modules (List Param)
  | Modules.single m => Modules.single (m.map (scrubParam o2))
  | Modules.multi ms => Modules.multi (ms.map (List.map (scrubParam o2)))

/-- `_append_module_grads` appends exactly the module's
sequence-parallel-enabled buffers to the accumulator. -/
theorem append_module_grads_eq (o2 : Bool) :
    ∀ (m : List Param) (gs : List (List Int)),
    _append_module_grads o2 m gs = gs ++ seqGradsOfModule o2 m := by
  intro m
  induction m with
  | nil => intro gs; simp [_append_module_grads, seqGradsOfModule]
  | cons p ps ih =>
    intro gs
    have hstep : _append_module_grads o2 (p :: ps) gs =
        _append_module_grads o2 ps
          (if p.sequence_parallel_enabled then
            gs ++ [if o2 then p.main_grad else p.grad]
          else gs) := rfl
    rw [hstep, ih]
    by_cases hp : p.sequence_parallel_enabled <;>
      simp [hp, seqGradsOfModule, List.filterMap_cons]

/-- Gradient collection over a module list accumulates the per-module
sequence-parallel buffers in order. -/
theorem collect_multi_fold (o2 : Bool) :
    ∀ (ms : List (List Param)) (gs0 : List (List Int)),
    ms.foldl (fun gs m => _append_module_grads o2 m gs) gs0 =
      gs0 ++ (ms.map (seqGradsOfModule o2)).flatten := by
  intro ms
  induction ms with
  | nil => intro gs0; simp
  | cons m rest ih =>
    intro gs0
    rw [List.foldl_cons, ih, append_module_grads_eq]
    simp

/-- Collection over a single module. -/
theorem collect_single (o2 : Bool) (m : List Param) :
    collectSeqParallelGrads o2 (Modules.single m) = seqGradsOfModule o2 m := by
  show _append_module_grads o2 m [] = _
  rw [append_module_grads_eq]
  simp

/-- Collection over a module list. -/
theorem collect_multi (o2 : Bool) (ms : List (List Param)) :
    collectSeqParallelGrads o2 (Modules.multi ms) =
      (ms.map (seqGradsOfModule o2)).flatten := by
  show ms.foldl (fun gs m => _append_module_grads o2 m gs) [] = _
  rw [collect_multi_fold]
  simp

/-- `unflattenLike` produces one chunk per original buffer. -/
theorem unflattenLike_length :
    ∀ (gs : List (List Int)) (flat : List Int),
    (unflattenLike gs flat).length = gs.length := by
  intro gs
  induction gs with
  | nil => intro flat; rfl
  | cons g rest ih => intro flat; simp [unflattenLike, ih]

/-- Collecting from a module headed by a sequence-parallel-enabled
parameter starts with its buffer. -/
theorem seqGrads_cons_true (o2 : Bool) (p : Param) (ps : List Param)
    (hp : p.sequence_parallel_enabled = true) :
    seqGradsOfModule o2 (p :: ps) =
      (if o2 then p.main_grad else p.grad) :: seqGradsOfModule o2 ps := by
  simp [seqGradsOfModule, List.filterMap_cons, hp]

/-- Collecting skips a parameter that is not sequence-parallel-enabled. -/
theorem seqGrads_cons_false (o2 : Bool) (p : Param) (ps : List Param)
    (hp : p.sequence_parallel_enabled = false) :
    seqGradsOfModule o2 (p :: ps) = seqGradsOfModule o2 ps := by
  simp [seqGradsOfModule, List.filterMap_cons, hp]

/-- The buffer of a parameter after a copy-back write is the written
chunk. -/
theorem seqGrads_cons_update (o2 : Bool) (p : Param) (b : List Int) (l : List Param)
    (hp : p.sequence_parallel_enabled = true) :
    seqGradsOfModule o2
      ((if o2 then { p with main_grad := b } else { p with grad := b }) :: l) =
      b :: seqGradsOfModule o2 l := by
  cases o2 <;> simp [seqGradsOfModule, List.filterMap_cons, hp]

/-- A copy-back write only changes the buffer that `scrubParam`
erases. -/
theorem scrub_update (o2 : Bool) (p : Param) (b : List Int)
    (hp : p.sequence_parallel_enabled = true) :
    scrubParam o2 (if o2 then { p with main_grad := b } else { p with grad := b }) =
      scrubParam o2 p := by
  cases o2 <;> simp [scrubParam, hp]

/-- Unfolding of `copyBackModule` on a sequence-parallel-enabled head
with an available chunk. -/
theorem copyBackModule_cons_true (o2 : Bool) (p : Param) (ps : List Param)
    (b : List Int) (bs : List (List Int)) (hp : p.sequence_parallel_enabled = true) :
    copyBackModule o2 (p :: ps) (b :: bs) =
      ((if o2 then { p with main_grad := b } else { p with grad := b }) ::
        (copyBackModule o2 ps bs).1, (copyBackModule o2 ps bs).2) := by
  simp [copyBackModule, hp]

/-- Unfolding of `copyBackModule` on a head that is not
sequence-parallel-enabled. -/
theorem copyBackModule_cons_false (o2 : Bool) (p : Param) (ps : List Param)
    (bufs : List (List Int)) (hp : p.sequence_parallel_enabled = false) :
    copyBackModule o2 (p :: ps) bufs =
      (p :: (copyBackModule o2 ps bufs).1, (copyBackModule o2 ps bufs).2) := by
  simp [copyBackModule, hp]

/-- Copy-back on one module: consumes exactly one chunk per
sequence-parallel-enabled parameter, writes those chunks into the
corresponding buffers in order, and changes nothing else. -/
theorem copyBackModule_spec (o2 : Bool) :
    ∀ (m : List Param) (chunks : List (List Int)),
    (seqGradsOfModule o2 m).length ≤ chunks.length →
    (copyBackModule o2 m chunks).2 = chunks.drop (seqGradsOfModule o2 m).length ∧
    seqGradsOfModule o2 (copyBackModule o2 m chunks).1 =
      chunks.take (seqGradsOfModule o2 m).length ∧
    (copyBackModule o2 m chunks).1.map (scrubParam o2) = m.map (scrubParam o2) := by
  intro m
  induction m with
  | nil =>
    intro chunks h
    simp [copyBackModule, seqGradsOfModule]
  | cons p ps ih =>
    intro chunks h
    by_cases hp : p.sequence_parallel_enabled = true
    · have hseqc := seqGrads_cons_true o2 p ps hp
      cases chunks with
      | nil =>
        exfalso
        rw [hseqc] at h
        simp at h
      | cons b bs =>
        have hlen : (seqGradsOfModule o2 ps).length ≤ bs.length := by
          rw [hseqc] at h
          simp at h
          omega
        obtain ⟨h1, h2, h3⟩ := ih bs hlen
        rw [copyBackModule_cons_true o2 p ps b bs hp]
        refine ⟨?_, ?_, ?_⟩
        · rw [hseqc]
          simpa using h1
        · rw [seqGrads_cons_update o2 p b _ hp, hseqc]
          simpa using h2
        · simp only [List.map_cons, scrub_update o2 p b hp, h3]
    · have hpf : p.sequence_parallel_enabled = false := by
        simpa using hp
      have hseq := seqGrads_cons_false o2 p ps hpf
      rw [hseq] at h
      obtain ⟨h1, h2, h3⟩ := ih chunks h
      rw [copyBackModule_cons_false o2 p ps chunks hpf, hseq]
      refine ⟨h1, ?_, ?_⟩
      · rw [seqGrads_cons_false o2 p _ hpf]
        exact h2
      · simp only [List.map_cons, h3]

/-- Copy-back over the module list: writes the chunk prefix into the
collected buffers in order and preserves everything else. -/
theorem copyBackModules_spec (o2 : Bool) :
    ∀ (ms : List (List Param)) (chunks : List (List Int)),
    ((ms.map (seqGradsOfModule o2)).flatten).length ≤ chunks.length →
    ((copyBackModules o2 ms chunks).map (seqGradsOfModule o2)).flatten =
      chunks.take ((ms.map (seqGradsOfModule o2)).flatten).length ∧
    (copyBackModules o2 ms chunks).map (List.map (scrubParam o2)) =
      ms.map (List.map (scrubParam o2)) := by
  intro ms
  induction ms with
  | nil =>
    intro chunks h
    simp [copyBackModules]
  | cons m rest ih =>
    intro chunks h
    have hm : (seqGradsOfModule o2 m).length ≤ chunks.length := by
      simp at h
      omega
    obtain ⟨h1, h2, h3⟩ := copyBackModule_spec o2 m chunks hm
    have hrest : ((rest.map (seqGradsOfModule o2)).flatten).length ≤
        ((copyBackModule o2 m chunks).2).length := by
      rw [h1, List.length_drop]
      simp at h ⊢
      omega
    obtain ⟨h4, h5⟩ := ih ((copyBackModule o2 m chunks).2) hrest
    rw [h1] at h4 h5
    have hcb : copyBackModules o2 (m :: rest) chunks =
        (copyBackModule o2 m chunks).1 ::
          copyBackModules o2 rest ((copyBackModule o2 m chunks).2) := rfl
    rw [hcb, h1]
    constructor
    · simp only [List.map_cons, List.flatten_cons, h2, h4]
      rw [List.length_append, List.take_add]
    · simp only [List.map_cons, h3, h5]

/-- Unfolding of the sequence-parallel all-reduce on a single module. -/
theorem aspg_single (o2 : Bool) (f : List Int → List Int) (m : List Param) :
    allreduce_sequence_parallel_gradients o2 f (Modules.single m) =
      Modules.single (copyBackModule o2 m
        (unflattenLike (collectSeqParallelGrads o2 (Modules.single m))
          (f (collectSeqParallelGrads o2 (Modules.single m)).flatten))).1 := rfl

/-- Unfolding of the sequence-parallel all-reduce on a module list. -/
theorem aspg_multi (o2 : Bool) (f : List Int → List Int) (ms : List (List Param)) :
    allreduce_sequence_parallel_gradients o2 f (Modules.multi ms) =
      Modules.multi (copyBackModules o2 ms
        (unflattenLike (collectSeqParallelGrads o2 (Modules.multi ms))
          (f (collectSeqParallelGrads o2 (Modules.multi ms)).flatten))) := rfl

/-- C2: the sequence-parallel gradient all-reduce is performed exactly
when sequence_parallel is enabled and tensor_model_parallel_size > 1, in
addition to (not instead of) the decision-table reduction, which still
contributes exactly one main- or raw-grad all-reduce whenever the
distributed optimizer is not in use; and the all-reduce itself collects
the sequence-parallel-enabled gradient buffers, flattens them into one
contiguous buffer, applies the collective to that buffer, and copies the
resulting chunks back into the original gradient buffers, leaving every
other parameter and buffer unchanged. -/
theorem C2_sequence_parallel_allreduce_iff (cfg : Config)
    (model : Modules (List Param)) (allReduce : List Int → List Int) :
    ((gradSyncActions cfg).count SyncAction.sequenceParallelAllReduce =
      if cfg.tensor_model_parallel_size > 1 ∧ cfg.sequence_parallel = true then 1
      else 0) ∧
    ((gradSyncActions cfg).count SyncAction.mainGradAllReduce +
      (gradSyncActions cfg).count SyncAction.rawGradAllReduce =
      if cfg.with_distributed_adam = true then 0 else 1) ∧
    (collectSeqParallelGrads cfg.megatron_amp_O2
        (allreduce_sequence_parallel_gradients cfg.megatron_amp_O2 allReduce model) =
      unflattenLike (collectSeqParallelGrads cfg.megatron_amp_O2 model)
        (allReduce (collectSeqParallelGrads cfg.megatron_amp_O2 model).flatten)) ∧
    scrubModel cfg.megatron_amp_O2
        (allreduce_sequence_parallel_gradients cfg.megatron_amp_O2 allReduce model) =
      scrubModel cfg.megatron_amp_O2 model := by
  have hfun : ∀ (o2 : Bool) (mdl : Modules (List Param)),
      collectSeqParallelGrads o2 (allreduce_sequence_parallel_gradients o2 allReduce mdl) =
        unflattenLike (collectSeqParallelGrads o2 mdl)
          (allReduce (collectSeqParallelGrads o2 mdl).flatten) ∧
      scrubModel o2 (allreduce_sequence_parallel_gradients o2 allReduce mdl) =
        scrubModel o2 mdl := by
    intro o2 mdl
    cases mdl with
    | single m =>
      have hlen : (seqGradsOfModule o2 m).length ≤
          (unflattenLike (collectSeqParallelGrads o2 (Modules.single m))
            (allReduce (collectSeqParallelGrads o2 (Modules.single m)).flatten)).length := by
        rw [unflattenLike_length, collect_single]
      obtain ⟨h1, h2, h3⟩ := copyBackModule_spec o2 m _ hlen
      constructor
      · rw [aspg_single, collect_single, h2, collect_single,
          ← unflattenLike_length (seqGradsOfModule o2 m)
            (allReduce (seqGradsOfModule o2 m).flatten)]
        exact List.take_length _
      · rw [aspg_single]
        show Modules.single ((copyBackModule o2 m _).1.map (scrubParam o2)) =
          Modules.single (m.map (scrubParam o2))
        rw [h3]
    | multi ms =>
      have hlen : ((ms.map (seqGradsOfModule o2)).flatten).length ≤
          (unflattenLike (collectSeqParallelGrads o2 (Modules.multi ms))
            (allReduce (collectSeqParallelGrads o2 (Modules.multi ms)).flatten)).length := by
        rw [unflattenLike_length, collect_multi]
      obtain ⟨h4, h5⟩ := copyBackModules_spec o2 ms _ hlen
      constructor
      · rw [aspg_multi, collect_multi, h4, collect_multi,
          ← unflattenLike_length ((ms.map (seqGradsOfModule o2)).flatten)
            (allReduce ((ms.map (seqGradsOfModule o2)).flatten).flatten)]
        exact List.take_length _
      · rw [aspg_multi]
        show Modules.multi ((copyBackModules o2 ms _).map (List.map (scrubParam o2))) =
          Modules.multi (ms.map (List.map (scrubParam o2)))
        rw [h5]
  have hmain : (SyncAction.mainGradAllReduce ≠ SyncAction.sequenceParallelAllReduce) := by
    decide
  have hraw : (SyncAction.rawGradAllReduce ≠ SyncAction.sequenceParallelAllReduce) := by
    decide
  refine ⟨?_, ?_, (hfun _ model).1, (hfun _ model).2⟩
  · unfold gradSyncActions
    rw [List.count_append]
    have hsuf : ∀ (d o : Bool),
        (if d then ([] : List SyncAction)
         else if o then [SyncAction.mainGradAllReduce]
         else [SyncAction.rawGradAllReduce]).count
          SyncAction.sequenceParallelAllReduce = 0 := by
      intro d o
      cases d <;> cases o <;> simp [List.count_cons]
    rw [hsuf cfg.with_distributed_adam cfg.megatron_amp_O2]
    by_cases hc : cfg.tensor_model_parallel_size > 1 ∧ cfg.sequence_parallel = true
    · have hb : (decide (cfg.tensor_model_parallel_size > 1) &&
          cfg.sequence_parallel) = true := by
        simp only [Bool.and_eq_true, decide_eq_true_eq]
        exact ⟨hc.1, hc.2⟩
      rw [if_pos hb, if_pos hc]
      simp [List.count_cons]
    · have hb : ¬((decide (cfg.tensor_model_parallel_size > 1) &&
          cfg.sequence_parallel) = true) := by
        simp only [Bool.and_eq_true, decide_eq_true_eq]
        exact fun hh => hc ⟨hh.1, hh.2⟩
      rw [if_neg hb, if_neg hc]
      simp
  · unfold gradSyncActions
    rw [List.count_append, List.count_append,
      count_seq_prefix _ SyncAction.mainGradAllReduce hmain,
      count_seq_prefix _ SyncAction.rawGradAllReduce hraw]
    cases hd : cfg.with_distributed_adam <;> cases ho : cfg.megatron_amp_O2 <;>
      simp [List.count_cons]

end MegatronCLIP
